import Mathlib

/-!
Verification of the HealthLogOps persistence layer
(`src/database/manager.py`, class `DatabaseManager`).

The store is a SQLite database with two tables, `categories` and
`health_logs`.  We shallowly embed it as a pure state type `DB` holding the
two tables as lists of records plus the AUTOINCREMENT sequence counters,
and each `DatabaseManager` method as a function from `DB` to a result
paired with the successor state.  Serialized JSON columns
(`template_json`, `metrics_json`) are modelled by the structured values
they encode: Python's `json.dumps`/`json.loads` round-trips
`dict[str, int | float | str]` values exactly (floats serialize via
`repr`, which is exact for finite doubles), so storing the decoded value
is faithful; floats are modelled as exact rationals.  Timestamps are
stored as ISO-8601 text of `datetime.isoformat()` and compared as text by
`ORDER BY`; for fixed-format timestamps that text order agrees with
chronological order, so we model a timestamp as a `Nat`.

A key point of the embedding, checked against the SQLite and Python
`sqlite3` documentation: the `health_logs` schema declares
`FOREIGN KEY (category_id) REFERENCES categories (id) ON DELETE CASCADE`,
but foreign-key enforcement in SQLite is OFF unless a connection runs
`PRAGMA foreign_keys = ON`, and `DatabaseManager._get_connection` never
does.  Hence, as executed, deleting a category does NOT cascade to its
logs, and inserting a log with a dangling `category_id` succeeds.
`delete_category` below models that actual behavior.
-/

namespace HealthLogOps

/-- The single generic store error, mirroring `DatabaseError` in
`manager.py`: every store-level failure is rolled back and re-raised as
this one exception type, carrying only a message string. -/
inductive DatabaseError where
  | mk (message : String) : DatabaseError
deriving DecidableEq, Repr

/-- A JSON scalar value as stored in a log's `metrics_json` column:
Python `int`, `float`, or `str`.  Floats are modelled as exact rationals;
`json.dumps`/`json.loads` round-trips finite doubles exactly. -/
inductive Value where
  | vint (i : Int) : Value
  | vfloat (q : ℚ) : Value
  | vstr (s : String) : Value
deriving DecidableEq, Repr

/-- A metrics mapping: Python `dict[str, int | float | str]`, which is an
insertion-ordered association list.  `json.dumps`/`json.loads` preserves
keys, insertion order, and the value types. -/
abbrev Metrics := List (String × Value)

/-- A category template: Python `dict[str, str]` of field name to type
tag, serialized into the `template_json` column. -/
abbrev Template := List (String × String)

/-- One row of the `categories` table. -/
structure Category where
  id : Nat
  name : String
  icon : String
  template : Template
deriving DecidableEq, Repr

/-- One row of the `health_logs` table.  `notes` is the one nullable
column. -/
structure HealthLog where
  id : Nat
  category_id : Nat
  activity_name : String
  timestamp : Nat
  metrics : Metrics
  notes : Option String
deriving DecidableEq, Repr

/-- The whole store: both tables (rows in insertion order, as SQLite
returns them for an unordered scan) together with the AUTOINCREMENT
sequence counters of the two tables (`sqlite_sequence`): a freshly
inserted row gets id one larger than the largest id ever used. -/
structure DB where
  categories : List Category
  health_logs : List HealthLog
  cat_seq : Nat
  log_seq : Nat
deriving DecidableEq, Repr

/-- The state right after `_init_database` on a fresh file. -/
def emptyDB : DB := ⟨[], [], 0, 0⟩

/-- `DatabaseManager.add_category`: single INSERT in one transaction.
The UNIQUE constraint on `categories.name` makes the insert fail when the
name is already present; the transaction rolls back (state unchanged) and
the failure surfaces as `DatabaseError`.  Otherwise the new row is
appended and `cursor.lastrowid` — the fresh AUTOINCREMENT id — is
returned. -/
def DB.add_category (db : DB) (name icon : String) (template : Template) :
    Except DatabaseError Nat × DB :=
  if db.categories.any (fun c => c.name == name) then
    (.error (.mk "UNIQUE constraint failed: categories.name"), db)
  else
    let newId := db.cat_seq + 1
    (.ok newId,
     { db with
        categories := db.categories ++ [⟨newId, name, icon, template⟩],
        cat_seq := newId })

/-- `DatabaseManager.get_category`: SELECT by primary key; `id` is the
primary key so at most one row matches, and `find?` returns it. -/
def DB.get_category (db : DB) (category_id : Nat) : Option Category :=
  db.categories.find? (fun c => c.id == category_id)

/-- Insert an element into a list, in front of the first element it
compares `le` to.  Helper of `sortBy`. -/
def insertLe (le : α → α → Bool) (x : α) : List α → List α
  | [] => [x]
  | y :: ys => if le x y then x :: y :: ys else y :: insertLe le x ys

/-- Insertion sort by a boolean comparison.  This models SQL `ORDER BY`
(any sort producing a `le`-sorted permutation is a faithful model; the
order of ties is unspecified by SQLite).  A structurally recursive sort
is used so that concrete queries evaluate inside the kernel. -/
def sortBy (le : α → α → Bool) : List α → List α
  | [] => []
  | x :: xs => insertLe le x (sortBy le xs)

/-- Comparison used by `ORDER BY name` (BINARY collation: byte order,
which for these names agrees with Lean's `String` order). -/
def byName (a b : Category) : Bool := decide (a.name ≤ b.name)

/-- `DatabaseManager.get_all_categories`: all rows ordered by name. -/
def DB.get_all_categories (db : DB) : List Category :=
  sortBy byName db.categories

/-- `DatabaseManager.update_category`: builds the SET list from the
supplied optional arguments; with none supplied it returns False without
touching the database.  Otherwise a single UPDATE runs; it reports
`rowcount > 0`.  Setting `name` to a value held by a different row
violates the UNIQUE constraint: the transaction rolls back and
`DatabaseError` is raised (the constraint is only checked when a row is
actually updated, i.e. when the id matches some row). -/
def DB.update_category (db : DB) (category_id : Nat)
    (name icon : Option String) (template : Option Template) :
    Except DatabaseError Bool × DB :=
  if name.isNone && icon.isNone && template.isNone then
    (.ok false, db)
  else
    let rowExists := db.categories.any (fun c => c.id == category_id)
    let nameConflict :=
      match name with
      | some n =>
          rowExists && db.categories.any
            (fun c => c.name == n && !(c.id == category_id))
      | none => false
    if nameConflict then
      (.error (.mk "UNIQUE constraint failed: categories.name"), db)
    else
      (.ok rowExists,
       { db with
          categories := db.categories.map (fun c =>
            if c.id == category_id then
              { c with
                 name := name.getD c.name,
                 icon := icon.getD c.icon,
                 template := template.getD c.template }
            else c) })

/-- `DatabaseManager.delete_category`: `DELETE FROM categories WHERE
id = ?`, reporting `rowcount > 0`.  The schema's `ON DELETE CASCADE`
clause is dormant because no connection ever issues
`PRAGMA foreign_keys = ON` (SQLite's default is OFF), so the
`health_logs` table is untouched. -/
def DB.delete_category (db : DB) (category_id : Nat) : Bool × DB :=
  let remaining := db.categories.filter (fun c => !(c.id == category_id))
  (decide (remaining.length < db.categories.length),
   { db with categories := remaining })

/-- `DatabaseManager.add_log`: single INSERT; no existence check on
`category_id` is performed (and with foreign keys OFF, SQLite performs
none either), so the insert always succeeds and returns the fresh id.
The `timestamp` argument stands for `timestamp or datetime.now()`
already resolved. -/
def DB.add_log (db : DB) (category_id : Nat) (activity_name : String)
    (metrics : Metrics) (notes : Option String) (timestamp : Nat) :
    Except DatabaseError Nat × DB :=
  let newId := db.log_seq + 1
  (.ok newId,
   { db with
      health_logs := db.health_logs ++
        [⟨newId, category_id, activity_name, timestamp, metrics, notes⟩],
      log_seq := newId })

/-- `DatabaseManager.get_log`: SELECT by primary key. -/
def DB.get_log (db : DB) (log_id : Nat) : Option HealthLog :=
  db.health_logs.find? (fun l => l.id == log_id)

/-- A row of `get_recent_logs`: `_row_to_log` output when the row carries
the LEFT-JOINed `category_name` and `category_icon` columns, which are
NULL when no category matches the log's `category_id`. -/
structure LogView where
  entry : HealthLog
  category_name : Option String
  category_icon : Option String
deriving DecidableEq, Repr

/-- The LEFT JOIN of one `health_logs` row against `categories` on
`hl.category_id = c.id`.  Since `categories.id` is the primary key, at
most one row matches, so the join annotates rather than multiplies. -/
def DB.annotateLog (db : DB) (l : HealthLog) : LogView :=
  match db.categories.find? (fun c => c.id == l.category_id) with
  | some c => ⟨l, some c.name, some c.icon⟩
  | none => ⟨l, none, none⟩

/-- SQLite `LIMIT ?` semantics for a Python int argument: a negative
limit means no limit; otherwise at most `limit` rows are kept. -/
def applyLimit (limit : Int) (xs : List α) : List α :=
  if limit < 0 then xs else xs.take limit.toNat

/-- Comparison used by `ORDER BY timestamp DESC`. -/
def byTimestampDesc (a b : HealthLog) : Bool :=
  decide (b.timestamp ≤ a.timestamp)

/-- `DatabaseManager.get_recent_logs`: LEFT JOIN with `categories`,
ordered by timestamp descending, capped by `LIMIT ?`. -/
def DB.get_recent_logs (db : DB) (limit : Int) : List LogView :=
  (applyLimit limit (sortBy byTimestampDesc db.health_logs)).map
    db.annotateLog

/-- `DatabaseManager.get_logs_by_category`: rows of one category,
ordered by timestamp descending, capped by `LIMIT ?`. -/
def DB.get_logs_by_category (db : DB) (category_id : Nat) (limit : Int) :
    List HealthLog :=
  applyLimit limit
    (sortBy byTimestampDesc
      (db.health_logs.filter (fun l => l.category_id == category_id)))

/-- `DatabaseManager.delete_log`: DELETE by id, reporting
`rowcount > 0`. -/
def DB.delete_log (db : DB) (log_id : Nat) : Bool × DB :=
  let remaining := db.health_logs.filter (fun l => !(l.id == log_id))
  (decide (remaining.length < db.health_logs.length),
   { db with health_logs := remaining })

/-- `DatabaseManager.update_log`: builds the SET list from the supplied
optional arguments; with none supplied it returns False without touching
the database, else one UPDATE runs and `rowcount > 0` is reported.  No
constraint can fail on `health_logs`, so no error case arises. -/
def DB.update_log (db : DB) (log_id : Nat)
    (activity_name : Option String) (metrics : Option Metrics)
    (notes : Option String) : Bool × DB :=
  if activity_name.isNone && metrics.isNone && notes.isNone then
    (false, db)
  else
    (db.health_logs.any (fun l => l.id == log_id),
     { db with
        health_logs := db.health_logs.map (fun l =>
          if l.id == log_id then
            { l with
               activity_name := activity_name.getD l.activity_name,
               metrics := metrics.getD l.metrics,
               notes := match notes with
                 | some s => some s
                 | none => l.notes }
          else l) })

/-- The six default categories of `seed_default_categories`, in insertion
order, each with its name, icon and fixed template. -/
def defaultCategories : List (String × String × Template) :=
  [("Strength Training", "weight-lifter",
     [("sets", "int"), ("reps", "int"), ("weight_kg", "float")]),
   ("Cardio", "run",
     [("duration_min", "int"), ("distance_km", "float"),
      ("avg_heart_rate", "int")]),
   ("Meal", "food",
     [("calories", "int"), ("protein_g", "float"), ("carbs_g", "float"),
      ("fat_g", "float")]),
   ("Sleep", "sleep",
     [("hours", "float"), ("quality_1_10", "int")]),
   ("Water Intake", "water",
     [("glasses", "int")]),
   ("Weight Log", "scale-bathroom",
     [("weight_kg", "float")])]

/-- `DatabaseManager.seed_default_categories`: returns immediately when
`get_all_categories` is non-empty; otherwise inserts the six defaults one
by one, swallowing any `DatabaseError` (on error `add_category` leaves
the state unchanged, which is exactly the `except DatabaseError: pass`). -/
def DB.seed_default_categories (db : DB) : DB :=
  if db.get_all_categories.isEmpty then
    defaultCategories.foldl
      (fun acc cat => (acc.add_category cat.1 cat.2.1 cat.2.2).2) db
  else db

/-- Well-formedness invariants every store reachable through the API
satisfies: AUTOINCREMENT means every id is at most the sequence counter,
primary keys make ids distinct within a table, and the UNIQUE constraint
makes category names distinct. -/
def DB.WF (db : DB) : Prop :=
  (∀ c ∈ db.categories, c.id ≤ db.cat_seq) ∧
  (db.categories.map Category.id).Nodup ∧
  (db.categories.map Category.name).Nodup ∧
  (∀ l ∈ db.health_logs, l.id ≤ db.log_seq) ∧
  (db.health_logs.map HealthLog.id).Nodup

instance (db : DB) : Decidable db.WF := by
  unfold DB.WF; infer_instance

/-! ### Generic lookup lemmas

SELECT / UPDATE by primary key touch the unique row whose key matches;
these lemmas capture that for `find?` and `map` over a table whose key
column is duplicate-free. -/

theorem find?_key_of_mem {α : Type} (key : α → Nat) :
    ∀ (xs : List α) (i : Nat), (xs.map key).Nodup →
      ∀ l ∈ xs, key l = i → xs.find? (fun x => key x == i) = some l := by
  intro xs
  induction xs with
  | nil => intro i _ l hl; cases hl
  | cons hd t ih =>
    intro i hnd l hl hi
    simp only [List.map_cons, List.nodup_cons] at hnd
    rcases List.mem_cons.mp hl with rfl | hl
    · exact List.find?_cons_of_pos _ (by simp [hi])
    · have hne : key hd ≠ i := fun he =>
        hnd.1 (by rw [he, ← hi]; exact List.mem_map_of_mem key hl)
      rw [List.find?_cons_of_neg _ (by simp [hne])]
      exact ih i hnd.2 l hl hi

theorem find?_map_ite {α : Type} (key : α → Nat) (upd : α → α)
    (hupd : ∀ x, key (upd x) = key x) :
    ∀ (xs : List α) (i : Nat), (xs.map key).Nodup →
      ∀ l ∈ xs, key l = i →
        (xs.map (fun x => if key x == i then upd x else x)).find?
          (fun x => key x == i) = some (upd l) := by
  intro xs
  induction xs with
  | nil => intro i _ l hl; cases hl
  | cons hd t ih =>
    intro i hnd l hl hi
    simp only [List.map_cons, List.nodup_cons] at hnd
    rcases List.mem_cons.mp hl with rfl | hl
    · rw [List.map_cons, if_pos (by simp [hi])]
      exact List.find?_cons_of_pos _ (by simp [hupd, hi])
    · have hne : key hd ≠ i := fun he =>
        hnd.1 (by rw [he, ← hi]; exact List.mem_map_of_mem key hl)
      rw [List.map_cons, if_neg (by simp [hne]),
        List.find?_cons_of_neg _ (by simp [hne])]
      exact ih i hnd.2 l hl hi

/-! ### Concrete sample stores used to witness the theorems -/

/-- A store holding one category (id 1) and one log referencing it. -/
def dbCascade : DB :=
  ⟨[⟨1, "Cardio", "run", []⟩], [⟨1, 1, "Morning Run", 10, [], none⟩], 1, 1⟩

/-- A store holding one category named Cardio and no logs. -/
def dbSample : DB :=
  ⟨[⟨1, "Cardio", "run", [("duration_min", "int")]⟩], [], 1, 0⟩

/-! ### Claims -/

/-- C1: the spec claims `deleteCategory` cascades, deleting every
LogEntry of the category.  The code intends this (its docstring and the
schema's ON DELETE CASCADE say so) but never enables SQLite foreign-key
enforcement, so the logs survive: deleting category 1 reports success,
removes the category row, yet the log referencing id 1 is still in the
store. -/
theorem delete_category_no_cascade :
    (dbCascade.delete_category 1).1 = true ∧
    (dbCascade.delete_category 1).2.categories = [] ∧
    ((dbCascade.delete_category 1).2.health_logs.filter
      (fun l => l.category_id == 1)).length = 1 := by
  decide

/-- C8: an update call with zero optional fields supplied returns the
"nothing changed" flag False and leaves the store untouched, raising no
error, for any id whatsoever. -/
theorem update_zero_fields_noop (db : DB) (i j : Nat) :
    db.update_category i none none none = (.ok false, db) ∧
    db.update_log j none none none = (false, db) :=
  ⟨rfl, rfl⟩

/-- C2: inserting a category whose name is already present raises the
single generic `DatabaseError` and leaves the store (hence the existing
record) unchanged; inserting a fresh name succeeds, returns the new
AUTOINCREMENT id, and appends exactly the new row. -/
theorem add_category_unique (db : DB) (n icon : String) (tpl : Template) :
    ((∃ c ∈ db.categories, c.name = n) →
       db.add_category n icon tpl =
         (.error (.mk "UNIQUE constraint failed: categories.name"), db)) ∧
    ((∀ c ∈ db.categories, c.name ≠ n) →
       db.add_category n icon tpl =
         (.ok (db.cat_seq + 1),
          { db with
             categories :=
               db.categories ++ [⟨db.cat_seq + 1, n, icon, tpl⟩],
             cat_seq := db.cat_seq + 1 })) := by
  constructor
  · rintro ⟨c, hc, rfl⟩
    unfold DB.add_category
    rw [if_pos (List.any_eq_true.mpr ⟨c, hc, by simp⟩)]
  · intro hall
    unfold DB.add_category
    rw [if_neg]
    simp only [List.any_eq_true, beq_iff_eq, not_exists]
    intro c
    exact fun h => absurd h.2 (hall c h.1)

/-- C2 witness: on `dbSample`, re-adding Cardio fails atomically and
adding Yoga succeeds with id 2. -/
theorem add_category_unique_witness :
    (dbSample.add_category "Cardio" "x" [] =
      (.error (.mk "UNIQUE constraint failed: categories.name"),
       dbSample)) ∧
    (dbSample.add_category "Yoga" "y" [] =
      (.ok (dbSample.cat_seq + 1),
       { dbSample with
          categories :=
            dbSample.categories ++ [⟨dbSample.cat_seq + 1, "Yoga", "y", []⟩],
          cat_seq := dbSample.cat_seq + 1 })) :=
  ⟨(add_category_unique dbSample "Cardio" "x" []).1 (by decide),
   (add_category_unique dbSample "Yoga" "y" []).2 (by decide)⟩

/-- C9: `add_log` checks nothing about `category_id` (foreign keys being
unenforced): for every store and every `category_id`, dangling or not,
it succeeds, returning the fresh id `log_seq + 1` — an id no existing
log carries — and the new row is in the store afterwards. -/
theorem add_log_no_existence_check (db : DB) (h : db.WF) (cid : Nat)
    (an : String) (m : Metrics) (nts : Option String) (ts : Nat) :
    (db.add_log cid an m nts ts).1 = .ok (db.log_seq + 1) ∧
    (∀ l ∈ db.health_logs, l.id ≠ db.log_seq + 1) ∧
    (⟨db.log_seq + 1, cid, an, ts, m, nts⟩ : HealthLog) ∈
      (db.add_log cid an m nts ts).2.health_logs := by
  refine ⟨rfl, ?_, ?_⟩
  · intro l hl he
    have := h.2.2.2.1 l hl
    omega
  · unfold DB.add_log
    simp

/-- C9 witness: on the empty store, category id 42 references no
category, yet the insert succeeds with id 1. -/
theorem add_log_no_existence_check_witness :
    (emptyDB.add_log 42 "Run" [] none 5).1 = .ok (emptyDB.log_seq + 1) ∧
    (∀ l ∈ emptyDB.health_logs, l.id ≠ emptyDB.log_seq + 1) ∧
    (⟨emptyDB.log_seq + 1, 42, "Run", 5, [], none⟩ : HealthLog) ∈
      (emptyDB.add_log 42 "Run" [] none 5).2.health_logs :=
  add_log_no_existence_check emptyDB (by decide) 42 "Run" [] none 5

/-- C4: a round trip through the store preserves the metrics mapping,
values and value types: `add_log` succeeds with a fresh id, and `get_log`
on that id returns the entry with `metrics` (and the other supplied
fields) exactly as given. -/
theorem add_log_get_log_roundtrip (db : DB) (h : db.WF) (cid : Nat)
    (an : String) (m : Metrics) (nts : Option String) (ts : Nat) :
    ∃ lid, (db.add_log cid an m nts ts).1 = .ok lid ∧
      ∃ l, (db.add_log cid an m nts ts).2.get_log lid = some l ∧
        l.metrics = m ∧ l.activity_name = an ∧ l.category_id = cid ∧
        l.timestamp = ts ∧ l.notes = nts := by
  refine ⟨db.log_seq + 1, rfl,
    ⟨db.log_seq + 1, cid, an, ts, m, nts⟩, ?_, rfl, rfl, rfl, rfl, rfl⟩
  unfold DB.add_log DB.get_log
  simp only [List.find?_append]
  have hnone :
      db.health_logs.find? (fun l => l.id == db.log_seq + 1) = none := by
    rw [List.find?_eq_none]
    intro l hl
    have := h.2.2.2.1 l hl
    simp only [beq_iff_eq]
    omega
  rw [hnone]
  simp [List.find?]

/-- C4 witness: a two-metric mapping (an int and a float) survives the
round trip on the empty store. -/
theorem add_log_get_log_roundtrip_witness :
    ∃ lid,
      (emptyDB.add_log 1 "Morning Run"
        [("duration_min", Value.vint 30), ("distance_km", Value.vfloat 5)]
        none 7).1 = .ok lid ∧
      ∃ l,
        (emptyDB.add_log 1 "Morning Run"
          [("duration_min", Value.vint 30), ("distance_km", Value.vfloat 5)]
          none 7).2.get_log lid = some l ∧
        l.metrics =
          [("duration_min", Value.vint 30),
           ("distance_km", Value.vfloat 5)] ∧
        l.activity_name = "Morning Run" ∧ l.category_id = 1 ∧
        l.timestamp = 7 ∧ l.notes = none :=
  add_log_get_log_roundtrip emptyDB (by decide) 1 "Morning Run"
    [("duration_min", Value.vint 30), ("distance_km", Value.vfloat 5)]
    none 7

/-- C10: `update_log` with a metrics mapping replaces the stored mapping
wholesale: the retrieved entry's metrics equal the supplied mapping
exactly, so keys present before but absent from the new mapping are
gone, never merged in. -/
theorem update_log_metrics_replace (db : DB) (h : db.WF) (l : HealthLog)
    (hl : l ∈ db.health_logs) (m : Metrics) :
    (db.update_log l.id none (some m) none).2.get_log l.id =
      some { l with metrics := m } := by
  unfold DB.update_log
  rw [if_neg (by simp)]
  unfold DB.get_log
  exact find?_map_ite HealthLog.id
    (fun x => { x with
                 activity_name := Option.getD none x.activity_name,
                 metrics := Option.getD (some m) x.metrics,
                 notes := x.notes })
    (fun x => rfl) db.health_logs l.id h.2.2.2.2 l hl rfl

/-- C10 witness: replacing the metrics of the log in `dbCascade` by a
single-key mapping leaves exactly that mapping. -/
theorem update_log_metrics_replace_witness :
    (dbCascade.update_log 1 none (some [("duration_min", Value.vint 45)])
      none).2.get_log 1 =
      some ⟨1, 1, "Morning Run", 10, [("duration_min", Value.vint 45)],
            none⟩ :=
  update_log_metrics_replace dbCascade (by decide)
    ⟨1, 1, "Morning Run", 10, [], none⟩ (by decide)
    [("duration_min", Value.vint 45)]

/-- C5: frame property of partial updates.  For every existing LogEntry
and every `update_log` call, whatever subset of the optional arguments
is supplied, the retrieved entry keeps every omitted field bit-for-bit
(in particular, a notes-only update leaves `activity_name`, `metrics`,
`timestamp` and `category_id` untouched, as the general record equation
shows).  For every existing Category and every `update_category` call —
`name` supplied or not, colliding or not — the record afterwards has
the same id and every omitted field keeps its prior value (on a name
collision the transaction rolls back and the whole record, supplied
fields included, is unchanged). -/
theorem update_omitted_fields_frame (db : DB) (h : db.WF) :
    (∀ l ∈ db.health_logs,
      ∀ (a? : Option String) (m? : Option Metrics) (n? : Option String),
      (db.update_log l.id a? m? n?).2.get_log l.id =
        some { l with
                activity_name := a?.getD l.activity_name,
                metrics := m?.getD l.metrics,
                notes := match n? with
                  | some s => some s
                  | none => l.notes }) ∧
    (∀ c ∈ db.categories,
      ∀ (n? i? : Option String) (t? : Option Template),
      ∃ c', (db.update_category c.id n? i? t?).2.get_category c.id =
          some c' ∧
        c'.id = c.id ∧
        (n? = none → c'.name = c.name) ∧
        (i? = none → c'.icon = c.icon) ∧
        (t? = none → c'.template = c.template)) := by
  have hkl := h.2.2.2.2
  have hkc := h.2.1
  constructor
  · intro l hl a? m? n?
    rcases a? with _ | av <;> rcases m? with _ | mv <;> rcases n? with _ | nv
    case none.none.none =>
      exact find?_key_of_mem HealthLog.id db.health_logs l.id hkl l hl rfl
    case none.none.some =>
      exact find?_map_ite HealthLog.id
        (fun x => { x with notes := some nv }) (fun x => rfl)
        db.health_logs l.id hkl l hl rfl
    case none.some.none =>
      exact find?_map_ite HealthLog.id
        (fun x => { x with metrics := mv }) (fun x => rfl)
        db.health_logs l.id hkl l hl rfl
    case none.some.some =>
      exact find?_map_ite HealthLog.id
        (fun x => { x with metrics := mv, notes := some nv })
        (fun x => rfl) db.health_logs l.id hkl l hl rfl
    case some.none.none =>
      exact find?_map_ite HealthLog.id
        (fun x => { x with activity_name := av }) (fun x => rfl)
        db.health_logs l.id hkl l hl rfl
    case some.none.some =>
      exact find?_map_ite HealthLog.id
        (fun x => { x with activity_name := av, notes := some nv })
        (fun x => rfl) db.health_logs l.id hkl l hl rfl
    case some.some.none =>
      exact find?_map_ite HealthLog.id
        (fun x => { x with activity_name := av, metrics := mv })
        (fun x => rfl) db.health_logs l.id hkl l hl rfl
    case some.some.some =>
      exact find?_map_ite HealthLog.id
        (fun x => { x with activity_name := av, metrics := mv,
                           notes := some nv })
        (fun x => rfl) db.health_logs l.id hkl l hl rfl
  · intro c hc n? i? t?
    have hfind : db.categories.find? (fun x => x.id == c.id) = some c :=
      find?_key_of_mem Category.id db.categories c.id hkc c hc rfl
    have hrow : db.categories.any (fun x => x.id == c.id) = true :=
      List.any_eq_true.mpr ⟨c, hc, by simp⟩
    rcases n? with _ | n
    · rcases i? with _ | iv <;> rcases t? with _ | tv
      case none.none =>
        exact ⟨c, hfind, rfl, fun _ => rfl, fun _ => rfl, fun _ => rfl⟩
      case none.some =>
        exact ⟨{ c with template := tv },
          find?_map_ite Category.id (fun x => { x with template := tv })
            (fun x => rfl) db.categories c.id hkc c hc rfl,
          rfl, fun _ => rfl, fun _ => rfl,
          fun ht => Option.noConfusion ht⟩
      case some.none =>
        exact ⟨{ c with icon := iv },
          find?_map_ite Category.id (fun x => { x with icon := iv })
            (fun x => rfl) db.categories c.id hkc c hc rfl,
          rfl, fun _ => rfl, fun hi => Option.noConfusion hi,
          fun _ => rfl⟩
      case some.some =>
        exact ⟨{ c with icon := iv, template := tv },
          find?_map_ite Category.id
            (fun x => { x with icon := iv, template := tv })
            (fun x => rfl) db.categories c.id hkc c hc rfl,
          rfl, fun _ => rfl, fun hi => Option.noConfusion hi,
          fun ht => Option.noConfusion ht⟩
    · by_cases hany : db.categories.any
          (fun x => x.name == n && !(x.id == c.id)) = true
      · have hkey : db.update_category c.id (some n) i? t? =
            (.error (.mk "UNIQUE constraint failed: categories.name"),
             db) := by
          simp [DB.update_category, hrow, hany]
        refine ⟨c, ?_, rfl, fun hn => Option.noConfusion hn,
          fun _ => rfl, fun _ => rfl⟩
        rw [hkey]
        exact hfind
      · rw [Bool.not_eq_true] at hany
        have hkey : db.update_category c.id (some n) i? t? =
            (.ok true,
             { db with
                categories := db.categories.map (fun x =>
                  if x.id == c.id then
                    { x with
                       name := n,
                       icon := i?.getD x.icon,
                       template := t?.getD x.template }
                  else x) }) := by
          simp [DB.update_category, hrow, hany]
        refine ⟨{ c with
                   name := n,
                   icon := i?.getD c.icon,
                   template := t?.getD c.template },
          ?_, rfl, fun hn => Option.noConfusion hn, ?_, ?_⟩
        · rw [hkey]
          exact find?_map_ite Category.id
            (fun x => { x with
                         name := n,
                         icon := i?.getD x.icon,
                         template := t?.getD x.template })
            (fun x => rfl) db.categories c.id hkc c hc rfl
        · rintro rfl
          rfl
        · rintro rfl
          rfl

/-- C5 witness: on `dbCascade`, a notes-only log update keeps every
other log field, and a category update supplying a new name and icon
(but not template) keeps the omitted template and the id. -/
theorem update_omitted_fields_frame_witness :
    ((dbCascade.update_log 1 none none (some "pb")).2.get_log 1 =
      some ⟨1, 1, "Morning Run", 10, [], some "pb"⟩) ∧
    (∃ c', (dbCascade.update_category 1 (some "Biking") (some "bike")
        none).2.get_category 1 = some c' ∧
      c'.id = 1 ∧
      ((some "Biking" : Option String) = none → c'.name = "Cardio") ∧
      ((some "bike" : Option String) = none → c'.icon = "run") ∧
      ((none : Option Template) = none → c'.template = [])) :=
  ⟨(update_omitted_fields_frame dbCascade (by decide)).1
     ⟨1, 1, "Morning Run", 10, [], none⟩ (by decide)
     none none (some "pb"),
   (update_omitted_fields_frame dbCascade (by decide)).2
     ⟨1, "Cardio", "run", []⟩ (by decide)
     (some "Biking") (some "bike") none⟩

/-! ### Ordering and join helper lemmas -/

theorem insertLe_perm (le : α → α → Bool) (x : α) (xs : List α) :
    (insertLe le x xs).Perm (x :: xs) := by
  induction xs with
  | nil => exact List.Perm.refl _
  | cons y ys ih =>
    unfold insertLe
    split
    · exact List.Perm.refl _
    · exact (List.Perm.cons y ih).trans (List.Perm.swap x y ys)

theorem sortBy_perm (le : α → α → Bool) (xs : List α) :
    (sortBy le xs).Perm xs := by
  induction xs with
  | nil => exact List.Perm.refl _
  | cons x xs ih =>
    exact (insertLe_perm le x (sortBy le xs)).trans (List.Perm.cons x ih)

theorem sortBy_eq_nil (le : α → α → Bool) (xs : List α) :
    sortBy le xs = [] ↔ xs = [] := by
  constructor
  · intro h
    have hlen := (sortBy_perm le xs).length_eq
    rw [h] at hlen
    exact List.length_eq_zero.mp hlen.symm
  · rintro rfl
    rfl

theorem insertLe_pairwise (le : α → α → Bool)
    (htrans : ∀ a b c, le a b → le b c → le a c)
    (htotal : ∀ a b, le a b || le b a) (x : α) (xs : List α)
    (h : xs.Pairwise (fun a b => le a b = true)) :
    (insertLe le x xs).Pairwise (fun a b => le a b = true) := by
  induction xs with
  | nil => simp [insertLe]
  | cons y ys ih =>
    rw [List.pairwise_cons] at h
    unfold insertLe
    split
    · rename_i hxy
      rw [List.pairwise_cons]
      refine ⟨?_, List.pairwise_cons.mpr h⟩
      intro z hz
      rcases List.mem_cons.mp hz with rfl | hz
      · exact hxy
      · exact htrans x y z hxy (h.1 z hz)
    · rename_i hxy
      have hyx : le y x := by
        have := htotal x y
        rw [Bool.or_eq_true] at this
        exact this.resolve_left hxy
      rw [List.pairwise_cons]
      refine ⟨?_, ih h.2⟩
      intro z hz
      rcases List.mem_cons.mp ((insertLe_perm le x ys).mem_iff.mp hz)
        with rfl | hz'
      · exact hyx
      · exact h.1 z hz'

theorem sortBy_pairwise (le : α → α → Bool)
    (htrans : ∀ a b c, le a b → le b c → le a c)
    (htotal : ∀ a b, le a b || le b a) (xs : List α) :
    (sortBy le xs).Pairwise (fun a b => le a b = true) := by
  induction xs with
  | nil => exact List.Pairwise.nil
  | cons x xs ih => exact insertLe_pairwise le htrans htotal x _ ih

theorem annotateLog_entry (db : DB) (l : HealthLog) :
    (db.annotateLog l).entry = l := by
  unfold DB.annotateLog
  split <;> rfl

theorem applyLimit_sublist (limit : Int) (xs : List α) :
    (applyLimit limit xs).Sublist xs := by
  unfold applyLimit
  split
  · exact List.Sublist.refl xs
  · exact List.take_sublist _ xs

theorem applyLimit_length_le (limit : Int) (hlim : 0 ≤ limit)
    (xs : List α) : ((applyLimit limit xs).length : Int) ≤ limit := by
  unfold applyLimit
  rw [if_neg (by omega)]
  have h2 : (xs.take limit.toNat).length = min limit.toNat xs.length :=
    List.length_take limit.toNat xs
  omega

/-- A list sorted by `ORDER BY timestamp DESC` whose timestamps are
pairwise distinct is strictly descending. -/
theorem sortedDesc_strict (xs : List HealthLog)
    (hsort : xs.Pairwise (fun a b => byTimestampDesc a b = true))
    (hnd : (xs.map HealthLog.timestamp).Nodup) :
    (xs.map HealthLog.timestamp).Pairwise (· > ·) := by
  have h1 : xs.Pairwise (fun a b => a.timestamp ≠ b.timestamp) := by
    rw [List.Nodup, List.pairwise_map] at hnd
    exact hnd
  have h2 : xs.Pairwise (fun a b => b.timestamp ≤ a.timestamp) :=
    hsort.imp (fun hab => by simpa [byTimestampDesc] using hab)
  rw [List.pairwise_map]
  exact (h2.and h1).imp (fun hab => by omega)

theorem byTimestampDesc_trans :
    ∀ (a b c : HealthLog), byTimestampDesc a b → byTimestampDesc b c →
      byTimestampDesc a c := by
  intro a b c hab hbc
  simp only [byTimestampDesc, decide_eq_true_eq] at *
  omega

theorem byTimestampDesc_total :
    ∀ (a b : HealthLog), byTimestampDesc a b || byTimestampDesc b a := by
  intro a b
  simp only [byTimestampDesc, Bool.or_eq_true, decide_eq_true_eq]
  omega

/-! ### Remaining claims -/

/-- C6 counterexample to the claim as stated, which quantifies over
every limit value: Python passes the int straight into the SQL `LIMIT ?`
and SQLite treats a negative limit as "no limit", so on a one-log store
`get_recent_logs (-1)` returns one entry — more than the claimed cap of
-1 — even though the ordering part still holds. -/
theorem recent_logs_neg_limit_counterexample :
    ¬ (((dbCascade.get_recent_logs (-1)).length : Int) ≤ -1 ∧
       ((dbCascade.get_recent_logs (-1)).map
         (fun v => v.entry.timestamp)).Pairwise (· > ·)) := by
  decide

/-- C6 (amended to nonnegative limits): for every store whose log
timestamps are pairwise distinct and every limit ≥ 0, `get_recent_logs`
returns at most `limit` entries in strictly descending timestamp order,
and `get_logs_by_category` likewise for the rows of one category.  (For
a negative limit the SQL LIMIT clause means "no limit", and the ordering
statements still hold; only the cap needs limit ≥ 0.) -/
theorem recent_logs_ordered (db : DB) (limit : Int) (hlim : 0 ≤ limit)
    (hts : (db.health_logs.map HealthLog.timestamp).Nodup) (cid : Nat) :
    ((db.get_recent_logs limit).length : Int) ≤ limit ∧
    ((db.get_recent_logs limit).map
      (fun v => v.entry.timestamp)).Pairwise (· > ·) ∧
    ((db.get_logs_by_category cid limit).length : Int) ≤ limit ∧
    ((db.get_logs_by_category cid limit).map
      HealthLog.timestamp).Pairwise (· > ·) := by
  have perm := sortBy_perm byTimestampDesc db.health_logs
  have hsorted := sortBy_pairwise byTimestampDesc byTimestampDesc_trans
    byTimestampDesc_total db.health_logs
  have hnd : ((sortBy byTimestampDesc db.health_logs).map
      HealthLog.timestamp).Nodup :=
    ((perm.map HealthLog.timestamp).nodup_iff).mpr hts
  have hstrict := sortedDesc_strict _ hsorted hnd
  refine ⟨?_, ?_, ?_, ?_⟩
  · unfold DB.get_recent_logs
    rw [List.length_map]
    exact applyLimit_length_le limit hlim _
  · unfold DB.get_recent_logs
    rw [List.map_map]
    have hfun : ((fun v : LogView => v.entry.timestamp) ∘ db.annotateLog)
        = HealthLog.timestamp := by
      funext x
      simp [Function.comp, annotateLog_entry]
    rw [hfun]
    exact hstrict.sublist
      ((applyLimit_sublist limit _).map HealthLog.timestamp)
  · unfold DB.get_logs_by_category
    exact applyLimit_length_le limit hlim _
  · unfold DB.get_logs_by_category
    have hndf : ((sortBy byTimestampDesc
        (db.health_logs.filter
          (fun l => l.category_id == cid))).map
            HealthLog.timestamp).Nodup := by
      have hperm := sortBy_perm byTimestampDesc
        (db.health_logs.filter (fun l => l.category_id == cid))
      refine ((hperm.map HealthLog.timestamp).nodup_iff).mpr ?_
      exact List.Nodup.sublist
        ((List.filter_sublist _).map HealthLog.timestamp) hts
    have hsf := sortBy_pairwise byTimestampDesc byTimestampDesc_trans
      byTimestampDesc_total
      (db.health_logs.filter (fun l => l.category_id == cid))
    have := sortedDesc_strict _ hsf hndf
    exact this.sublist
      ((applyLimit_sublist limit _).map HealthLog.timestamp)

/-- C6 witness: on a two-log store with distinct timestamps, limit 5. -/
theorem recent_logs_ordered_witness :
    ((dbCascade.get_recent_logs 5).length : Int) ≤ 5 ∧
    ((dbCascade.get_recent_logs 5).map
      (fun v => v.entry.timestamp)).Pairwise (· > ·) ∧
    ((dbCascade.get_logs_by_category 1 5).length : Int) ≤ 5 ∧
    ((dbCascade.get_logs_by_category 1 5).map
      HealthLog.timestamp).Pairwise (· > ·) :=
  recent_logs_ordered dbCascade 5 (by decide) (by decide) 1

/-- A store with one category and two logs: log 1 references it, log 2
references the nonexistent category 99 (an orphan, as arises after the
uncascaded delete of C1). -/
def dbJoin : DB :=
  ⟨[⟨1, "Cardio", "run", []⟩],
   [⟨1, 1, "Morning Run", 10, [], none⟩,
    ⟨2, 99, "Ghost", 20, [], none⟩],
   1, 2⟩

/-- C7: when the limit does not truncate, every LogEntry — also one
whose `category_id` matches no category — appears in `get_recent_logs`,
annotated with the owning category's name and icon when the category
exists, and with null name and icon when it does not (LEFT JOIN
semantics: inclusion, not exclusion). -/
theorem recent_logs_left_join (db : DB) (h : db.WF) (limit : Int)
    (hlim : (db.health_logs.length : Int) ≤ limit)
    (l : HealthLog) (hl : l ∈ db.health_logs) :
    ∃ v ∈ db.get_recent_logs limit, v.entry = l ∧
      (∀ c ∈ db.categories, c.id = l.category_id →
        v.category_name = some c.name ∧ v.category_icon = some c.icon) ∧
      ((∀ c ∈ db.categories, c.id ≠ l.category_id) →
        v.category_name = none ∧ v.category_icon = none) := by
  refine ⟨db.annotateLog l, ?_, annotateLog_entry db l, ?_, ?_⟩
  · unfold DB.get_recent_logs
    apply List.mem_map_of_mem
    have hmem : l ∈ sortBy byTimestampDesc db.health_logs :=
      (sortBy_perm byTimestampDesc db.health_logs).mem_iff.mpr hl
    unfold applyLimit
    split
    · exact hmem
    · rw [List.take_of_length_le]
      · exact hmem
      · have := (sortBy_perm byTimestampDesc
          db.health_logs).length_eq
        omega
  · intro c hc hcid
    unfold DB.annotateLog
    cases hfind : db.categories.find? (fun x => x.id == l.category_id) with
    | none =>
        exact absurd (List.find?_eq_none.mp hfind c hc) (by simp [hcid])
    | some c' =>
        have hc'mem := List.mem_of_find?_eq_some hfind
        have hc'id : c'.id = l.category_id := by
          simpa using List.find?_some hfind
        have hcc : c = c' :=
          List.inj_on_of_nodup_map h.2.1 hc hc'mem (by rw [hcid, hc'id])
        subst hcc
        exact ⟨rfl, rfl⟩
  · intro hnone
    unfold DB.annotateLog
    cases hfind : db.categories.find? (fun x => x.id == l.category_id) with
    | none => exact ⟨rfl, rfl⟩
    | some c' =>
        have hc'mem := List.mem_of_find?_eq_some hfind
        have hc'id : c'.id = l.category_id := by
          simpa using List.find?_some hfind
        exact absurd hc'id (hnone c' hc'mem)

/-- C7 witness: on `dbJoin`, the orphan log (category 99) is returned
with null category name and icon. -/
theorem recent_logs_left_join_witness :
    ∃ v ∈ dbJoin.get_recent_logs 5,
      v.entry = (⟨2, 99, "Ghost", 20, [], none⟩ : HealthLog) ∧
      (∀ c ∈ dbJoin.categories,
        c.id = (⟨2, 99, "Ghost", 20, [], none⟩ : HealthLog).category_id →
        v.category_name = some c.name ∧ v.category_icon = some c.icon) ∧
      ((∀ c ∈ dbJoin.categories,
        c.id ≠ (⟨2, 99, "Ghost", 20, [], none⟩ : HealthLog).category_id) →
        v.category_name = none ∧ v.category_icon = none) :=
  recent_logs_left_join dbJoin (by decide) 5 (by decide)
    ⟨2, 99, "Ghost", 20, [], none⟩ (by decide)

/-- C3: from an empty category table, one seeding call creates exactly
the six default categories (by name, in the seeded order — six, not
twelve), a second call changes nothing, and on any store already holding
a category, seeding inserts nothing. -/
theorem seed_defaults_idempotent (db : DB) :
    (db.categories = [] →
       (db.seed_default_categories).categories.map Category.name =
         ["Strength Training", "Cardio", "Meal", "Sleep", "Water Intake",
          "Weight Log"] ∧
       (db.seed_default_categories).categories.length = 6 ∧
       (db.seed_default_categories).seed_default_categories =
         db.seed_default_categories) ∧
    (db.categories ≠ [] → db.seed_default_categories = db) := by
  obtain ⟨cats, logs, cs, ls⟩ := db
  constructor
  · rintro rfl
    refine ⟨?_, ?_, ?_⟩ <;>
      simp [DB.seed_default_categories, DB.get_all_categories,
        defaultCategories, DB.add_category, sortBy, insertLe]
  · intro hne
    unfold DB.seed_default_categories DB.get_all_categories
    rw [if_neg]
    simp only [List.isEmpty_eq_true, sortBy_eq_nil]
    exact hne

/-- C3 witness: seeding the fresh store yields the six names, and
seeding `dbSample` (one category present) changes nothing. -/
theorem seed_defaults_idempotent_witness :
    ((emptyDB.seed_default_categories).categories.map Category.name =
       ["Strength Training", "Cardio", "Meal", "Sleep", "Water Intake",
        "Weight Log"] ∧
     (emptyDB.seed_default_categories).categories.length = 6 ∧
     (emptyDB.seed_default_categories).seed_default_categories =
       emptyDB.seed_default_categories) ∧
    dbSample.seed_default_categories = dbSample :=
  ⟨(seed_defaults_idempotent emptyDB).1 rfl,
   (seed_defaults_idempotent dbSample).2 (by decide)⟩

end HealthLogOps
